import Mathlib

/-!
Verification of the message-routing and hash-chained audit-logging core of
the Pramiti_AI repository (communication orchestrator plus blockchain-style
ledger).  The Python sources are shallowly embedded: dictionaries become
association lists, `datetime.now()` becomes a monotone tick counter, the
SHA-256 digest of the canonical JSON serialization of an entry becomes an
explicit function parameter `hash : EntryCore → String`, and Python
exceptions (in particular AttributeError raised by a lookup of a name that
an object does not define) become `Except String` results.
-/

/-- The MessageType enum (base_agent.py lines 14-19).  Its members are
REPORT, REQUEST, RESPONSE, ESCALATION and NOTIFICATION; the orchestrator
additionally mentions the name INSTRUCTION, which this enum does not
define. -/
inductive MessageType where
  | REPORT
  | REQUEST
  | RESPONSE
  | ESCALATION
  | NOTIFICATION
deriving DecidableEq, Repr

/-- The string value of each MessageType member, as declared in the enum. -/
def messageTypeValue : MessageType → String
  | .REPORT => "report"
  | .REQUEST => "request"
  | .RESPONSE => "response"
  | .ESCALATION => "escalation"
  | .NOTIFICATION => "notification"

/-- The AgentRole enum (base_agent.py lines 9-12).  Its members are CEO,
SENIOR_MANAGER and SUBJECT_MATTER_EXPERT (value "sme"); there is no member
literally named SME. -/
inductive AgentRole where
  | CEO
  | SENIOR_MANAGER
  | SUBJECT_MATTER_EXPERT
deriving DecidableEq, Repr

/-- Member lookup on the AgentRole enum: Python resolves `AgentRole.<name>`
through the class namespace and raises AttributeError when `<name>` is not
a member.  The table lists exactly the members declared in base_agent.py. -/
def agentRoleMember : String → Option AgentRole
  | "CEO" => some .CEO
  | "SENIOR_MANAGER" => some .SENIOR_MANAGER
  | "SUBJECT_MATTER_EXPERT" => some .SUBJECT_MATTER_EXPERT
  | _ => none

/-- The Message dataclass (base_agent.py lines 21-30).  `content` and
`metadata` are string-keyed dictionaries modeled as association lists;
`timestamp` is an abstract clock tick.  The dataclass body performs no
validation and no clamping of `priority`; each field stores exactly the
value supplied.  The id field is named `id`: the dataclass defines no
attribute named `message_id`. -/
structure Message where
  id : String
  sender_id : String
  recipient_id : String
  message_type : MessageType
  content : List (String × String)
  timestamp : Nat
  priority : Int
  metadata : List (String × String)
deriving DecidableEq, Repr

/-- Dictionary lookup, i.e. `d.get(k)` / `k in d` on a Python dict modeled
as an association list (first binding wins). -/
def alistGet {β : Type} (d : List (String × β)) (k : String) : Option β :=
  match d with
  | [] => none
  | (k2, v) :: rest => if k2 = k then some v else alistGet rest k

/-- Dictionary assignment `d[k] = v`: replace an existing binding or add a
new one. -/
def alistSet {β : Type} (d : List (String × β)) (k : String) (v : β) :
    List (String × β) :=
  match d with
  | [] => [(k, v)]
  | (k2, v2) :: rest =>
    if k2 = k then (k, v) :: rest else (k2, v2) :: alistSet rest k v

/-- The data stored in one ledger entry besides the chain-linking fields:
either a message-transmission record as assembled by
CommunicationLogger.log_message (blockchain_logger.py lines 62-77) or an
agent-decision record as assembled by log_decision (lines 106-120).
The entry_id (a fresh uuid4), the content hashes and the timestamp are
environment-supplied inputs of the model. -/
inductive EntryPayload where
  | message (entry_id message_id sender_id recipient_id message_type content_hash : String)
      (timestamp : String) (priority : Int) (metadata : List (String × String))
  | decision (entry_id agent_id decision_context_hash decision_outcome_hash : String)
      (timestamp : String) (metadata : List (String × String))
deriving DecidableEq, Repr

/-- Everything of a ledger entry except its `entry_hash` field: exactly the
dictionary that _hash_entry serializes after popping "entry_hash"
(blockchain_logger.py lines 247-253).  `block_number` and `previous_hash`
are set before the hash is computed, so they participate in it. -/
structure EntryCore where
  payload : EntryPayload
  block_number : Nat
  previous_hash : String
deriving DecidableEq, Repr

/-- One entry of the local blockchain: its hashed core plus the stored
`entry_hash` field. -/
structure LedgerEntry where
  core : EntryCore
  entry_hash : String
deriving DecidableEq, Repr

/-- The genesis previous-hash value, 64 zero characters
(blockchain_logger.py line 258). -/
def genesisHash : String :=
  "0000000000000000000000000000000000000000000000000000000000000000"

/-- CommunicationLogger._get_previous_hash (blockchain_logger.py lines
255-259): the entry hash of the last block, or the genesis value on an
empty chain. -/
def get_previous_hash (chain : List LedgerEntry) : String :=
  match chain.getLast? with
  | none => genesisHash
  | some e => e.entry_hash

/-- The common append step of log_message and log_decision: assign
`block_number := len(chain) + 1` and `previous_hash := _get_previous_hash()`,
hash the resulting core to obtain `entry_hash`, and append the entry.
`hash` stands for sha256 of the canonical (sorted-keys) JSON serialization
of the core. -/
def appendEntry (hash : EntryCore → String) (chain : List LedgerEntry)
    (p : EntryPayload) : List LedgerEntry :=
  let core : EntryCore := ⟨p, chain.length + 1, get_previous_hash chain⟩
  chain ++ [⟨core, hash core⟩]

/-- CommunicationLogger.log_message on the development (local) path
(blockchain_logger.py lines 57-99): assembles the message-transmission
payload from the Message and appends it.  The fresh entry_id, the content
hash and the iso-formatted timestamp string are inputs; the merge of
message metadata with additional metadata is passed in as `meta`. -/
def log_message (hash : EntryCore → String) (chain : List LedgerEntry)
    (m : Message) (entry_id content_hash timestamp : String)
    (meta : List (String × String)) : List LedgerEntry :=
  appendEntry hash chain
    (.message entry_id m.id m.sender_id m.recipient_id
      (messageTypeValue m.message_type) content_hash timestamp m.priority meta)

/-- CommunicationLogger.log_decision (blockchain_logger.py lines 101-134):
assembles the agent-decision payload and appends it. -/
def log_decision (hash : EntryCore → String) (chain : List LedgerEntry)
    (agent_id decision_context_hash decision_outcome_hash entry_id timestamp : String)
    (meta : List (String × String)) : List LedgerEntry :=
  appendEntry hash chain
    (.decision entry_id agent_id decision_context_hash decision_outcome_hash timestamp meta)

/-- The loop body of verify_blockchain_integrity for indices i >= 1, with
`prev` the entry at i-1: check that previous_hash matches the entry hash of
the predecessor and that the stored entry_hash equals the recomputed hash
of the entry minus its entry_hash field (blockchain_logger.py lines
169-184). -/
def verifyLinked (hash : EntryCore → String) :
    LedgerEntry → List LedgerEntry → Bool
  | _, [] => true
  | prev, cur :: rest =>
    (decide (cur.core.previous_hash = prev.entry_hash) &&
      decide (cur.entry_hash = hash cur.core)) &&
    verifyLinked hash cur rest

/-- CommunicationLogger.verify_blockchain_integrity (blockchain_logger.py
lines 165-185).  The loop starts at the first entry but executes `continue`
for index 0, so the first entry is never checked at all: neither its
previous_hash nor its own entry_hash. -/
def verify_blockchain_integrity (hash : EntryCore → String) :
    List LedgerEntry → Bool
  | [] => true
  | e :: rest => verifyLinked hash e rest

/-- CommunicationLogger.import_blockchain (blockchain_logger.py lines
273-280): assigns `local_blockchain := data.copy()` first and only then
verifies, returning the verification result.  The result is the returned
boolean together with the chain the logger stores afterwards.  (The
try/except around the body can only fire when `data` is not a list, which
the typed model excludes.) -/
def import_blockchain (hash : EntryCore → String)
    (oldChain data : List LedgerEntry) : Bool × List LedgerEntry :=
  (verify_blockchain_integrity hash data, data)

/-- An empty ledger followed by one appendEntry per payload, in order:
the state after any sequence of sequential log_message / log_decision
calls, both of which factor through appendEntry. -/
def buildChain (hash : EntryCore → String) (ps : List EntryPayload) :
    List LedgerEntry :=
  ps.foldl (appendEntry hash) []

/-- Chain linkage between two adjacent ledger entries: the later entry
records the entry hash of the earlier one. -/
def linked (a b : LedgerEntry) : Prop :=
  b.core.previous_hash = a.entry_hash

/-- The stored entry hash of `e` is the hash recomputed from its core. -/
def hashOk (hash : EntryCore → String) (e : LedgerEntry) : Prop :=
  e.entry_hash = hash e.core

theorem verifyLinked_eq_true_iff (hash : EntryCore → String)
    (p : LedgerEntry) (xs : List LedgerEntry) :
    verifyLinked hash p xs = true ↔
      List.Chain linked p xs ∧ ∀ e ∈ xs, hashOk hash e := by
  induction xs generalizing p with
  | nil => simp [verifyLinked]
  | cons x rest ih =>
    simp [verifyLinked, List.chain_cons, ih x, linked, hashOk]
    tauto

theorem verify_eq_true_iff (hash : EntryCore → String)
    (chain : List LedgerEntry) :
    verify_blockchain_integrity hash chain = true ↔
      List.Chain' linked chain ∧ ∀ e ∈ chain.tail, hashOk hash e := by
  cases chain with
  | nil => simp [verify_blockchain_integrity, List.Chain']
  | cons e rest =>
    simp [verify_blockchain_integrity, List.Chain',
      verifyLinked_eq_true_iff hash e rest]

/-- The invariant maintained by appendEntry: block numbers are the range
1..length, a first entry carries the genesis previous hash, consecutive
entries are hash-linked, and every stored entry hash (first entry
included) matches the recomputed hash of its core. -/
def chainInv (hash : EntryCore → String) (chain : List LedgerEntry) : Prop :=
  chain.map (fun e => e.core.block_number) = List.range' 1 chain.length ∧
  (∀ e, chain.head? = some e → e.core.previous_hash = genesisHash) ∧
  List.Chain' linked chain ∧
  ∀ e ∈ chain, hashOk hash e

theorem chainInv_nil (hash : EntryCore → String) : chainInv hash [] := by
  refine ⟨rfl, ?_, ?_, ?_⟩ <;> simp

theorem chainInv_append (hash : EntryCore → String) (chain : List LedgerEntry)
    (p : EntryPayload) (h : chainInv hash chain) :
    chainInv hash (appendEntry hash chain p) := by
  obtain ⟨hb, hg, hc, hh⟩ := h
  refine ⟨?_, ?_, ?_, ?_⟩
  · simp only [appendEntry, List.map_append, List.length_append, List.map_cons,
      List.map_nil, List.length_cons, List.length_nil, hb]
    have hr : List.range' 1 (chain.length + 1) =
        List.range' 1 chain.length ++ [1 + 1 * chain.length] :=
      List.range'_concat 1 chain.length
    simp only [one_mul, Nat.add_comm 1 chain.length] at hr
    rw [(by omega : chain.length + (0 + 1) = chain.length + 1), ← hr]
  · intro e he
    cases chain with
    | nil =>
      simp only [appendEntry, List.nil_append, List.head?_cons,
        Option.some.injEq] at he
      subst he
      rfl
    | cons x rest =>
      simp only [appendEntry, List.cons_append, List.head?_cons,
        Option.some.injEq] at he
      subst he
      exact hg x rfl
  · simp only [appendEntry]
    rw [List.chain'_append]
    refine ⟨hc, List.chain'_singleton _, ?_⟩
    intro x hx y hy
    simp only [List.head?_cons, Option.mem_def, Option.some.injEq] at hy
    subst hy
    simp only [Option.mem_def] at hx
    simp [linked, get_previous_hash, hx]
  · intro e he
    simp only [appendEntry, List.mem_append, List.mem_singleton] at he
    rcases he with h1 | h2
    · exact hh e h1
    · subst h2
      rfl

theorem chainInv_foldl (hash : EntryCore → String) (ps : List EntryPayload) :
    ∀ chain, chainInv hash chain →
      chainInv hash (ps.foldl (appendEntry hash) chain) := by
  induction ps with
  | nil => intro chain h; simpa using h
  | cons p rest ih =>
    intro chain h
    exact ih _ (chainInv_append hash chain p h)

theorem length_foldl_appendEntry (hash : EntryCore → String)
    (ps : List EntryPayload) :
    ∀ chain, (ps.foldl (appendEntry hash) chain).length =
      chain.length + ps.length := by
  induction ps with
  | nil => simp
  | cons p rest ih =>
    intro chain
    rw [List.foldl_cons, ih]
    simp only [appendEntry, List.length_append, List.length_cons, List.length_nil]
    omega

theorem buildChain_length (hash : EntryCore → String) (ps : List EntryPayload) :
    (buildChain hash ps).length = ps.length := by
  rw [buildChain, length_foldl_appendEntry]
  simp

theorem chainInv_buildChain (hash : EntryCore → String)
    (ps : List EntryPayload) : chainInv hash (buildChain hash ps) :=
  chainInv_foldl hash ps [] (chainInv_nil hash)

/-- C1: starting from an empty ledger, after any sequence of N sequential
append operations (log_message or log_decision, both of which are
appendEntry on their assembled payloads), the stored block numbers are
exactly 1..N with no gaps or duplicates, the first entry carries the
genesis previous hash of 64 zero characters, every later entry records the
entry hash of its predecessor, and verify_blockchain_integrity returns
true. -/
theorem C1_chain_append_invariant (hash : EntryCore → String)
    (ps : List EntryPayload) :
    ((buildChain hash ps).map (fun e => e.core.block_number) =
        List.range' 1 ps.length) ∧
    (∀ e, (buildChain hash ps).head? = some e →
        e.core.previous_hash = genesisHash) ∧
    (∀ (i : Nat) (h : i < (buildChain hash ps).length - 1),
        ((buildChain hash ps).get ⟨i + 1, by omega⟩).core.previous_hash =
          ((buildChain hash ps).get ⟨i, by omega⟩).entry_hash) ∧
    verify_blockchain_integrity hash (buildChain hash ps) = true ∧
    (∀ chain m eid ch ts meta, log_message hash chain m eid ch ts meta =
        appendEntry hash chain (.message eid m.id m.sender_id m.recipient_id
          (messageTypeValue m.message_type) ch ts m.priority meta)) ∧
    (∀ chain aid cch och eid ts meta, log_decision hash chain aid cch och eid ts meta =
        appendEntry hash chain (.decision eid aid cch och ts meta)) := by
  obtain ⟨hb, hg, hc, hh⟩ := chainInv_buildChain hash ps
  refine ⟨?_, hg, ?_, ?_, fun _ _ _ _ _ _ => rfl, fun _ _ _ _ _ _ _ => rfl⟩
  · rw [← buildChain_length hash ps]
    exact hb
  · intro i h
    exact List.chain'_iff_get.mp hc i h
  · rw [verify_eq_true_iff]
    exact ⟨hc, fun e he => hh e (List.mem_of_mem_tail he)⟩

/-- A concrete serialization of a payload, used by the concrete example
hash function below. -/
def payloadStr : EntryPayload → String
  | .message eid mid sid rid mt ch ts p _ =>
    "m;" ++ eid ++ ";" ++ mid ++ ";" ++ sid ++ ";" ++ rid ++ ";" ++ mt ++
      ";" ++ ch ++ ";" ++ ts ++ ";" ++ toString p
  | .decision eid aid cch och ts _ =>
    "d;" ++ eid ++ ";" ++ aid ++ ";" ++ cch ++ ";" ++ och ++ ";" ++ ts

/-- A concrete executable stand-in for the sha256-of-serialization used in
witnesses and counterexamples.  The development is parameterized by the
hash function, so any concrete choice is admissible here. -/
def exHash (c : EntryCore) : String :=
  "h(" ++ toString c.block_number ++ ";" ++ c.previous_hash ++ ";" ++
    payloadStr c.payload ++ ")"

/-- A concrete message-transmission payload. -/
def exPayload1 : EntryPayload :=
  .message "e1" "m1" "agent-a" "agent-b" "request" "ch1" "t1" 2 []

/-- A concrete agent-decision payload. -/
def exPayload2 : EntryPayload :=
  .decision "e2" "agent-a" "cxh" "oxh" "t2" []

/-- Witness for C1 at a concrete two-element append sequence. -/
theorem C1_witness :
    verify_blockchain_integrity exHash (buildChain exHash [exPayload1, exPayload2]) = true ∧
    (buildChain exHash [exPayload1, exPayload2]).map (fun e => e.core.block_number) = [1, 2] ∧
    ((buildChain exHash [exPayload1, exPayload2]).get ⟨1, by decide⟩).core.previous_hash =
      ((buildChain exHash [exPayload1, exPayload2]).get ⟨0, by decide⟩).entry_hash := by
  have h := C1_chain_append_invariant exHash [exPayload1, exPayload2]
  exact ⟨h.2.2.2.1, h.1, h.2.2.1 0 (by decide)⟩

theorem get_mem_tail {α : Type} (l : List α) (i : Nat) (h : i < l.length)
    (h1 : 1 ≤ i) : l.get ⟨i, h⟩ ∈ l.tail := by
  cases l with
  | nil => simp at h
  | cons x xs =>
    cases i with
    | zero => omega
    | succ j =>
      simp only [List.get_cons_succ, List.tail_cons]
      exact List.get_mem xs _ _

/-- C5 (amended): for a ledger that verifies true, mutating an entry at any
index i >= 1 — either leaving its stored entry hash unchanged while the
mutation changes the recomputed hash of its core (which any change of a
hashed field does, absent a hash collision), or changing only its stored
entry hash — makes verify_blockchain_integrity return false.  The first
entry (index 0) is excluded: the verification loop skips it, so mutations
of its hashed fields go undetected (see the counterexample). -/
theorem C5_amended_tamper_detected (hash : EntryCore → String)
    (chain : List LedgerEntry)
    (hv : verify_blockchain_integrity hash chain = true)
    (i : Nat) (h1 : 1 ≤ i) (hlen : i < chain.length) (e2 : LedgerEntry)
    (hmut : (e2.entry_hash = (chain.get ⟨i, hlen⟩).entry_hash ∧
              hash e2.core ≠ hash (chain.get ⟨i, hlen⟩).core) ∨
            (e2.core = (chain.get ⟨i, hlen⟩).core ∧
              e2.entry_hash ≠ (chain.get ⟨i, hlen⟩).entry_hash)) :
    verify_blockchain_integrity hash (chain.set i e2) = false := by
  have horig : hashOk hash (chain.get ⟨i, hlen⟩) :=
    ((verify_eq_true_iff hash chain).mp hv).2 _ (get_mem_tail chain i hlen h1)
  rw [hashOk] at horig
  have hbad : ¬ hashOk hash e2 := by
    rcases hmut with ⟨ha, hb⟩ | ⟨ha, hb⟩
    · intro hok
      rw [hashOk] at hok
      apply hb
      rw [← hok, ha, horig]
    · intro hok
      rw [hashOk] at hok
      apply hb
      rw [hok, ha, ← horig]
  rw [Bool.eq_false_iff]
  intro hv2
  apply hbad
  refine ((verify_eq_true_iff hash _).mp hv2).2 e2 ?_
  have hlen2 : i < (chain.set i e2).length := by
    simpa using hlen
  have hget : (chain.set i e2).get ⟨i, hlen2⟩ = e2 := by
    simp
  have hmem := get_mem_tail (chain.set i e2) i hlen2 h1
  rwa [hget] at hmem

/-- The second entry of the two-element example chain. -/
def exEntryAt1 : LedgerEntry :=
  (buildChain exHash [exPayload1, exPayload2]).get ⟨1, by decide⟩

/-- The second entry with its agent_id field mutated and its stored entry
hash left unchanged. -/
def exTampered1 : LedgerEntry :=
  { exEntryAt1 with
    core := { exEntryAt1.core with
      payload := .decision "e2" "EVIL" "cxh" "oxh" "t2" [] } }

/-- Witness for the amended C5 theorem at index 1 of the concrete chain. -/
theorem C5_witness :
    verify_blockchain_integrity exHash
      ((buildChain exHash [exPayload1, exPayload2]).set 1 exTampered1) = false :=
  C5_amended_tamper_detected exHash (buildChain exHash [exPayload1, exPayload2])
    (by decide) 1 (by decide) (by decide) exTampered1 (Or.inl ⟨by decide, by decide⟩)

/-- The first entry of the example chain with its sender_id field mutated
and everything else, its stored entry hash included, left unchanged. -/
def exTampered0 : LedgerEntry :=
  ⟨⟨.message "e1" "m1" "EVIL" "agent-b" "request" "ch1" "t1" 2 [], 1, genesisHash⟩,
    exHash ⟨exPayload1, 1, genesisHash⟩⟩

/-- C5 counterexample: a two-entry ledger that verifies true still verifies
true after a field of its first entry is mutated, because the verification
loop skips index 0 and the linkage check of entry 1 compares against the
unchanged stored entry hash of entry 0.  This refutes the claim for the
first entry. -/
theorem C5_counterexample :
    verify_blockchain_integrity exHash (buildChain exHash [exPayload1, exPayload2]) = true ∧
    (buildChain exHash [exPayload1, exPayload2]).set 0 exTampered0 ≠
      buildChain exHash [exPayload1, exPayload2] ∧
    verify_blockchain_integrity exHash
      ((buildChain exHash [exPayload1, exPayload2]).set 0 exTampered0) = true := by
  decide

/-- C8 (amended): import_blockchain verifies the supplied entries and
returns false for every input sequence that fails chain verification, but
the stored chain afterwards is the supplied data — the previous chain is
discarded, not preserved. -/
theorem C8_amended_import_replaces (hash : EntryCore → String)
    (oldChain data : List LedgerEntry)
    (h : verify_blockchain_integrity hash data = false) :
    import_blockchain hash oldChain data = (false, data) := by
  simp [import_blockchain, h]

/-- A corrupt chain whose second entry records a broken previous hash. -/
def exBadChain : List LedgerEntry :=
  [⟨⟨exPayload1, 1, genesisHash⟩, exHash ⟨exPayload1, 1, genesisHash⟩⟩,
   ⟨⟨exPayload2, 2, "BROKEN"⟩, exHash ⟨exPayload2, 2, "BROKEN"⟩⟩]

/-- C8 counterexample: importing a chain that fails verification returns
false, yet the stored chain is the corrupt input, not the chain held
before the call — the claim that the ledger is left unchanged is false. -/
theorem C8_counterexample :
    (import_blockchain exHash (buildChain exHash [exPayload1]) exBadChain).1 = false ∧
    (import_blockchain exHash (buildChain exHash [exPayload1]) exBadChain).2 ≠
      buildChain exHash [exPayload1] := by
  decide

/-- Witness for the amended C8 theorem at the concrete corrupt input. -/
theorem C8_witness :
    import_blockchain exHash (buildChain exHash [exPayload1]) exBadChain =
      (false, exBadChain) :=
  C8_amended_import_replaces exHash (buildChain exHash [exPayload1]) exBadChain
    (by decide)

/-- One item of the underlying PriorityQueue: the tuple
(priority_value, timestamp, message) pushed by MessageQueue.put
(communication_orchestrator.py lines 39-45).  The wall-clock timestamp
taken at push time is modeled as a tick counter that advances with every
clock read, so successive pushes carry strictly increasing timestamps. -/
structure QItem where
  priority_value : Int
  timestamp : Nat
  msg : Message
deriving DecidableEq, Repr

/-- MessageQueue.put: push (6 - message.priority, now, message); lower
priority_value means higher priority, and no clamping is applied. -/
def putQueue (q : List QItem) (m : Message) (now : Nat) : List QItem :=
  q ++ [⟨6 - m.priority, now, m⟩]

/-- Strict ordering on the tuples (priority_value, timestamp), the order
by which the PriorityQueue yields its items.  (On a full tie Python would
compare the Message objects and fail; queues built by putQueue carry
distinct timestamps, so the third component is never compared.) -/
def keyLt (a b : QItem) : Bool :=
  decide (a.priority_value < b.priority_value ∨
    (a.priority_value = b.priority_value ∧ a.timestamp < b.timestamp))

/-- The PriorityQueue pop underlying MessageQueue.get: remove and return
the least item in the tuple order, the earliest-pushed one on ties. -/
def popMin : List QItem → Option (QItem × List QItem)
  | [] => none
  | x :: xs =>
    match popMin xs with
    | none => some (x, [])
    | some (y, ys) => if keyLt y x then some (y, x :: ys) else some (x, xs)

/-- MessageQueue.get (communication_orchestrator.py lines 47-53): pop the
least tuple and return its message component. -/
def getQueue (q : List QItem) : Option (Message × List QItem) :=
  (popMin q).map fun p => (p.1.msg, p.2)

/-- Enqueue the given messages in order, advancing the clock with each
push. -/
def enqueueFrom (q : List QItem) (t : Nat) : List Message → List QItem
  | [] => q
  | m :: ms => enqueueFrom (putQueue q m t) (t + 1) ms

/-- The queue contents after enqueuing the given messages in order into a
fresh MessageQueue. -/
def buildQueue (ms : List Message) : List QItem :=
  enqueueFrom [] 0 ms

/-- Repeatedly dequeue, collecting the returned messages. -/
def drainFuel : Nat → List QItem → List Message
  | 0, _ => []
  | fuel + 1, q =>
    match getQueue q with
    | none => []
    | some (m, r) => m :: drainFuel fuel r

/-- The full dequeue order of a queue. -/
def drain (q : List QItem) : List Message :=
  drainFuel q.length q

theorem popMin_eq_none_iff (q : List QItem) : popMin q = none ↔ q = [] := by
  cases q with
  | nil => simp [popMin]
  | cons x xs =>
    simp only [popMin]
    cases popMin xs with
    | none => simp
    | some p => by_cases h : keyLt p.1 x <;> simp [h]

theorem popMin_min (q : List QItem) (x : QItem) (r : List QItem)
    (hpop : popMin q = some (x, r)) :
    x ∈ q ∧ ∀ y ∈ q, x.priority_value < y.priority_value ∨
      (x.priority_value = y.priority_value ∧ x.timestamp ≤ y.timestamp) := by
  induction q generalizing x r with
  | nil => simp [popMin] at hpop
  | cons x0 xs ih =>
    cases hys : popMin xs with
    | none =>
      simp only [popMin, hys, Option.some.injEq, Prod.mk.injEq] at hpop
      obtain ⟨hx, hr⟩ := hpop
      subst hx
      have hnil := (popMin_eq_none_iff xs).mp hys
      subst hnil
      refine ⟨List.mem_singleton_self _, ?_⟩
      intro y hy
      simp only [List.mem_singleton] at hy
      subst hy
      right
      exact ⟨rfl, le_refl _⟩
    | some p =>
      obtain ⟨y0, ys⟩ := p
      obtain ⟨hy0, hmin⟩ := ih y0 ys hys
      cases hk : keyLt y0 x0 with
      | true =>
        simp only [popMin, hys, hk, if_true, Option.some.injEq,
          Prod.mk.injEq] at hpop
        obtain ⟨hx, hr⟩ := hpop
        subst hx
        refine ⟨List.mem_cons_of_mem x0 hy0, ?_⟩
        intro y hy
        rcases List.mem_cons.mp hy with h0 | hmem
        · subst h0
          rw [keyLt] at hk
          rcases of_decide_eq_true hk with h | ⟨h1, h2⟩
          · exact Or.inl h
          · exact Or.inr ⟨h1, le_of_lt h2⟩
        · exact hmin y hmem
      | false =>
        simp only [popMin, hys, hk, Bool.false_eq_true, if_false,
          Option.some.injEq, Prod.mk.injEq] at hpop
        obtain ⟨hx, hr⟩ := hpop
        subst hx
        refine ⟨List.mem_cons_self x0 xs, ?_⟩
        intro y hy
        rw [keyLt] at hk
        have hnk := of_decide_eq_false hk
        push_neg at hnk
        obtain ⟨hnk1, hnk2⟩ := hnk
        rcases List.mem_cons.mp hy with h0 | hmem
        · subst h0
          right
          exact ⟨rfl, le_refl _⟩
        · have hx0y0 : x0.priority_value ≤ y0.priority_value := by omega
          rcases hmin y hmem with h | ⟨h1, h2⟩
          · exact Or.inl (by omega)
          · by_cases he : x0.priority_value = y0.priority_value
            · have hts : x0.timestamp ≤ y0.timestamp := by
                have := hnk2 he.symm
                omega
              right
              exact ⟨by omega, by omega⟩
            · exact Or.inl (by omega)

/-- A concrete message of priority 1. -/
def exMsg1 : Message := ⟨"m1", "a", "b", .NOTIFICATION, [("k", "v")], 0, 1, []⟩

/-- A concrete message of priority 5, enqueued second. -/
def exMsg2 : Message := ⟨"m2", "a", "b", .NOTIFICATION, [("k", "v")], 0, 5, []⟩

/-- A concrete message of priority 3. -/
def exMsg3 : Message := ⟨"m3", "a", "b", .NOTIFICATION, [("k", "v")], 0, 3, []⟩

/-- A concrete message of priority 5, enqueued fourth. -/
def exMsg4 : Message := ⟨"m4", "a", "b", .NOTIFICATION, [("k", "v")], 0, 5, []⟩

/-- A concrete message of priority 2. -/
def exMsg5 : Message := ⟨"m5", "a", "b", .NOTIFICATION, [("k", "v")], 0, 2, []⟩

/-- Messages with priorities [1, 5, 3, 5, 2] in enqueue order. -/
def exMsgs : List Message := [exMsg1, exMsg2, exMsg3, exMsg4, exMsg5]

/-- C6: popMin (the pop behind MessageQueue.get) always yields an item of
the highest message priority present in the queue (the stored sort key is
6 - priority, so a minimal key is a maximal priority), and among items of
equal priority the one with the smallest timestamp, i.e. the
earliest-enqueued one (FIFO); in particular messages enqueued with
priorities [1,5,3,5,2] in that order dequeue as [5,5,3,2,1] with the two
priority-5 messages in their original relative order (m2 before m4). -/
theorem C6_priority_queue_order :
    (∀ (q : List QItem) (x : QItem) (r : List QItem),
        (∀ y ∈ q, y.priority_value = 6 - y.msg.priority) →
        popMin q = some (x, r) →
        x ∈ q ∧
        (∀ y ∈ q, y.msg.priority ≤ x.msg.priority) ∧
        (∀ y ∈ q, y.msg.priority = x.msg.priority → x.timestamp ≤ y.timestamp)) ∧
    (drain (buildQueue exMsgs)).map (fun m => (m.id, m.priority)) =
      [("m2", 5), ("m4", 5), ("m3", 3), ("m5", 2), ("m1", 1)] := by
  constructor
  · intro q x r hpv hpop
    obtain ⟨hx, hmin⟩ := popMin_min q x r hpop
    refine ⟨hx, ?_, ?_⟩
    · intro y hy
      have h2 := hpv y hy
      have h3 := hpv x hx
      rcases hmin y hy with h | ⟨h1, _⟩
      · omega
      · omega
    · intro y hy hpr
      have h2 := hpv y hy
      have h3 := hpv x hx
      rcases hmin y hy with h | ⟨h1, h4⟩
      · omega
      · exact h4
  · decide

/-- The queue remainder after the first pop of the [1,5,3,5,2] example. -/
def exRest6 : List QItem :=
  [⟨5, 0, exMsg1⟩, ⟨3, 2, exMsg3⟩, ⟨1, 3, exMsg4⟩, ⟨4, 4, exMsg5⟩]

/-- Witness for the general part of C6 at the concrete [1,5,3,5,2] queue:
the popped item is the first priority-5 message and dominates the
priority-1 item. -/
theorem C6_witness :
    (⟨5, 0, exMsg1⟩ : QItem).msg.priority ≤ (⟨1, 1, exMsg2⟩ : QItem).msg.priority :=
  ((C6_priority_queue_order.1 (buildQueue exMsgs) ⟨1, 1, exMsg2⟩ exRest6
    (by decide) (by decide)).2.1) ⟨5, 0, exMsg1⟩ (by decide)

/-- C9 (amended): a Message stores exactly the priority value it is given
(the dataclass body performs no clamping to [1,5]), and MessageQueue.put
enqueues the message unchanged under the sort key 6 - priority. -/
theorem C9_amended_no_clamping (mid sid rid : String) (mt : MessageType)
    (content : List (String × String)) (ts : Nat) (p : Int)
    (meta : List (String × String)) (q : List QItem) (m : Message) (now : Nat) :
    (Message.mk mid sid rid mt content ts p meta).priority = p ∧
    putQueue q m now = q ++ [⟨6 - m.priority, now, m⟩] :=
  ⟨rfl, rfl⟩

/-- C9 counterexample: a Message constructed with priority 7 keeps
priority 7, outside [1,5], and put enqueues it under key -1 with the
priority still 7 — no clamping happens anywhere. -/
theorem C9_counterexample :
    (Message.mk "mx" "a" "b" .NOTIFICATION [("k", "v")] 0 7 []).priority = 7 ∧
    ¬ ((Message.mk "mx" "a" "b" .NOTIFICATION [("k", "v")] 0 7 []).priority ≤ 5) ∧
    putQueue [] (Message.mk "mx" "a" "b" .NOTIFICATION [("k", "v")] 0 7 []) 0 =
      [⟨-1, 0, Message.mk "mx" "a" "b" .NOTIFICATION [("k", "v")] 0 7 []⟩] := by
  decide

/-- A Python attribute value read off a Message field. -/
inductive AttrVal where
  | str (s : String)
  | mtype (t : MessageType)
  | dict (d : List (String × String))
  | int (n : Int)
  | nat (n : Nat)
deriving DecidableEq, Repr

/-- Python attribute access on a Message object: exactly the fields the
dataclass declares (base_agent.py lines 21-30) resolve; any other name —
in particular message_id — raises AttributeError, modeled as an error
result. -/
def Message.getattr (m : Message) : String → Except String AttrVal
  | "id" => .ok (.str m.id)
  | "sender_id" => .ok (.str m.sender_id)
  | "recipient_id" => .ok (.str m.recipient_id)
  | "message_type" => .ok (.mtype m.message_type)
  | "content" => .ok (.dict m.content)
  | "timestamp" => .ok (.nat m.timestamp)
  | "priority" => .ok (.int m.priority)
  | "metadata" => .ok (.dict m.metadata)
  | a => .error ("AttributeError: Message." ++ a)

/-- The method names the CommunicationLogger class defines
(blockchain_logger.py): a call to any other name — in particular
log_communication — raises AttributeError. -/
def loggerMethods : List String :=
  ["log_message", "log_decision", "get_communication_history",
   "get_audit_trail", "verify_blockchain_integrity",
   "generate_compliance_report", "export_blockchain", "import_blockchain",
   "_hash_content", "_hash_entry", "_get_previous_hash",
   "_write_to_blockchain", "_initialize_web3_connection"]

/-- The slice of BaseAgent state the orchestrator reads: identity, role
and manager reference (base_agent.py lines 47-57; manager_id is optional,
None for the CEO). -/
structure Agent where
  agent_id : String
  role : AgentRole
  manager_id : Option String
deriving DecidableEq, Repr

/-- One entry of the active_conversations table as written by
_track_conversation (communication_orchestrator.py lines 263-269). -/
structure Conversation where
  original_sender : String
  started_at : Nat
  last_activity : Nat
  message_count : Nat
  status : String
deriving DecidableEq, Repr

/-- The mutable orchestrator state that send_message touches: the agent
registry, the per-agent queues, the conversation table, the two message
counters, the ledger held by the blockchain logger, and the model clock
standing for datetime.now().  (The constructor also builds a routing-rule
table, which send_message never consults.) -/
structure OrchState where
  agents : List (String × Agent)
  message_queues : List (String × List QItem)
  active_conversations : List (String × Conversation)
  messages_processed : Nat
  messages_failed : Nat
  ledger : List LedgerEntry
  now : Nat
deriving Repr

/-- A fresh orchestrator state. -/
def emptyOrch : OrchState := ⟨[], [], [], 0, 0, [], 0⟩

/-- CommunicationOrchestrator.register_agent (lines 93-98): store the
agent under its id and create an empty queue for it. -/
def register_agent (st : OrchState) (a : Agent) : OrchState :=
  { st with
    agents := alistSet st.agents a.agent_id a,
    message_queues := alistSet st.message_queues a.agent_id [] }

/-- CommunicationOrchestrator._validate_message (lines 173-181): fails on
a falsy sender_id (empty string) or falsy content (empty dict), and on an
unregistered sender. -/
def validate_message (st : OrchState) (m : Message) : Bool :=
  if m.sender_id = "" ∨ m.content = [] then false
  else if (alistGet st.agents m.sender_id).isNone then false
  else true

/-- CommunicationOrchestrator._route_escalation (lines 204-213).  The
source compares sender_agent.role against AgentRole.SME; the AgentRole
enum defines no member named SME (the member is SUBJECT_MATTER_EXPERT),
so the first comparison raises AttributeError for every sender. -/
def route_escalation (sender : Agent) : Except String (Option String) :=
  match agentRoleMember "SME" with
  | none => .error "AttributeError: AgentRole.SME"
  | some sme =>
    if sender.role = sme then .ok sender.manager_id
    else if sender.role = AgentRole.SENIOR_MANAGER then .ok sender.manager_id
    else .ok none

/-- CommunicationOrchestrator._route_response (lines 215-222): read the
conversation_id field of the message content and, when it names an open
conversation, return the original sender stored in that conversation. -/
def route_response (st : OrchState) (m : Message) : Option String :=
  match alistGet m.content "conversation_id" with
  | none => none
  | some cid =>
    if cid = "" then none
    else
      match alistGet st.active_conversations cid with
      | none => none
      | some conv => some conv.original_sender

/-- CommunicationOrchestrator._route_report (lines 224-226). -/
def route_report (sender : Agent) : Option String :=
  sender.manager_id

/-- CommunicationOrchestrator._route_message (lines 183-202): unknown
sender routes nowhere; an explicit registered recipient is used directly;
otherwise dispatch on the message type (ESCALATION, RESPONSE, REPORT),
with no default rule for the remaining types. -/
def route_message (st : OrchState) (m : Message) : Except String (Option String) :=
  match alistGet st.agents m.sender_id with
  | none => .ok none
  | some sender =>
    if m.recipient_id ≠ "" ∧ (alistGet st.agents m.recipient_id).isSome then
      .ok (some m.recipient_id)
    else if m.message_type = MessageType.ESCALATION then
      route_escalation sender
    else if m.message_type = MessageType.RESPONSE then
      .ok (route_response st m)
    else if m.message_type = MessageType.REPORT then
      .ok (route_report sender)
    else
      .ok none

/-- CommunicationOrchestrator._track_conversation (lines 259-275).  For
ESCALATION/REQUEST the source reads message.message_id to key the new
conversation entry; the Message dataclass defines no such attribute (its
id field is named id), so the read raises AttributeError.  For RESPONSE it
updates the entry named by the conversation_id content field when one is
open. -/
def track_conversation (convs : List (String × Conversation)) (m : Message)
    (now : Nat) : Except String (List (String × Conversation)) :=
  if m.message_type = MessageType.ESCALATION ∨ m.message_type = MessageType.REQUEST then
    match m.getattr "message_id" with
    | .error e => .error e
    | .ok (.str cid) => .ok (alistSet convs cid ⟨m.sender_id, now, now, 1, "active"⟩)
    | .ok _ => .error "TypeError: conversation key"
  else if m.message_type = MessageType.RESPONSE then
    match alistGet m.content "conversation_id" with
    | none => .ok convs
    | some cid =>
      if cid = "" then .ok convs
      else
        match alistGet convs cid with
        | none => .ok convs
        | some c =>
          .ok (alistSet convs cid
            { c with last_activity := now, message_count := c.message_count + 1 })
  else .ok convs

/-- CommunicationOrchestrator._log_message_to_blockchain (lines 228-251).
The body first builds log_data, whose first field reads
message.message_id — an attribute the Message dataclass does not define —
and would then call self.blockchain_logger.log_communication, a method
CommunicationLogger does not define.  Either way an AttributeError is
raised inside the try block; the except handler prints and returns, so
the state (the ledger in particular) is left untouched on every call. -/
def log_message_to_blockchain (st : OrchState) (m : Message) : OrchState :=
  let attempt : Except String Unit :=
    match m.getattr "message_id" with
    | .error e => .error e
    | .ok _ =>
      if loggerMethods.contains "log_communication" then .ok ()
      else .error "AttributeError: CommunicationLogger.log_communication"
  match attempt with
  | .ok _ => st
  | .error _ => st

/-- CommunicationOrchestrator.send_message (lines 133-171).  The whole
body sits in one try/except returning False from the handler after
incrementing the failure counter; state mutations already performed when
an exception surfaces (enqueue, counter updates) persist.  The clock
advances on each datetime.now() read that the executed path performs. -/
def send_message (st : OrchState) (m : Message) : Bool × OrchState :=
  if validate_message st m = false then
    (false, { st with messages_failed := st.messages_failed + 1 })
  else
    let st1 := log_message_to_blockchain st m
    match route_message st1 m with
    | .error _ => (false, { st1 with messages_failed := st1.messages_failed + 1 })
    | .ok none => (false, { st1 with messages_failed := st1.messages_failed + 1 })
    | .ok (some t) =>
      if t = "" then
        (false, { st1 with messages_failed := st1.messages_failed + 1 })
      else
        let m2 : Message := { m with recipient_id := t, timestamp := st1.now }
        let st2 : OrchState := { st1 with now := st1.now + 1 }
        match alistGet st2.message_queues t with
        | none => (false, { st2 with messages_failed := st2.messages_failed + 1 })
        | some q =>
          let st3 : OrchState := { st2 with
            message_queues := alistSet st2.message_queues t (putQueue q m2 st2.now),
            now := st2.now + 1,
            messages_processed := st2.messages_processed + 1 }
          match track_conversation st3.active_conversations m2 st3.now with
          | .ok convs =>
            (true, { st3 with active_conversations := convs, now := st3.now + 1 })
          | .error _ =>
            (false, { st3 with messages_failed := st3.messages_failed + 1 })

/-- C2: contrary to the claim, no transmission record is ever appended to
the ledger by send_message — for every state and message, the ledger
after the call equals the ledger before it.  The logging step positioned
before routing always raises internally (the Message dataclass has no
message_id attribute and CommunicationLogger has no log_communication
method) and the exception is swallowed. -/
theorem C2_send_never_appends_to_ledger (st : OrchState) (m : Message) :
    (send_message st m).2.ledger = st.ledger := by
  simp only [send_message, log_message_to_blockchain]
  repeat' split
  all_goals rfl

/-- An SME agent whose manager is mgr1. -/
def exSme : Agent := ⟨"sme1", .SUBJECT_MATTER_EXPERT, some "mgr1"⟩

/-- A senior manager whose manager is the CEO. -/
def exMgr : Agent := ⟨"mgr1", .SENIOR_MANAGER, some "ceo1"⟩

/-- The CEO, who has no manager. -/
def exCeo : Agent := ⟨"ceo1", .CEO, none⟩

/-- An orchestrator with the three-level hierarchy registered. -/
def exStateOrg : OrchState :=
  register_agent (register_agent (register_agent emptyOrch exSme) exMgr) exCeo

/-- A REQUEST from the SME with the manager as explicit recipient. -/
def exReq : Message :=
  Message.mk "req1" "sme1" "mgr1" .REQUEST [("k", "v")] 0 3 []

/-- C3: evaluating send_message on a REQUEST whose sender and explicit
recipient are both registered: the message is enqueued into the recipient
queue and the success counter is incremented, but — contrary to the
claim — no conversation entry keyed by the message id is recorded, the
failure counter is incremented as well, and send_message returns false:
_track_conversation raises AttributeError reading message.message_id
after the enqueue, and the handler of send_message turns that into a
False return. -/
theorem C3_request_enqueued_but_send_returns_false :
    (send_message exStateOrg exReq).1 = false ∧
    (send_message exStateOrg exReq).2.active_conversations = [] ∧
    alistGet (send_message exStateOrg exReq).2.message_queues "mgr1" =
      some [⟨3, 1, { exReq with recipient_id := "mgr1", timestamp := 0 }⟩] ∧
    (send_message exStateOrg exReq).2.messages_processed = 1 ∧
    (send_message exStateOrg exReq).2.messages_failed = 1 ∧
    track_conversation [] { exReq with recipient_id := "mgr1", timestamp := 0 } 2 =
      .error "AttributeError: Message.message_id" := by
  refine ⟨?_, ?_, ?_, ?_, ?_, ?_⟩ <;> rfl

/-- A RESPONSE carrying the conversation id of exReq and no explicit
recipient. -/
def exResp : Message :=
  Message.mk "resp1" "mgr1" "" .RESPONSE [("conversation_id", "req1")] 0 3 []

/-- C4: after the REQUEST of C3 is sent, the conversation table is still
empty (tracking crashed on message.message_id), so — contrary to the
claim — a RESPONSE carrying the original message id as conversation_id
resolves to no target: routing yields none and send_message returns
false.  The fallback half of the claim (no matching open conversation means
the send fails) is exactly what happens, but the round trip back to the
requester never occurs. -/
theorem C4_response_round_trip_fails :
    (send_message exStateOrg exReq).2.active_conversations = [] ∧
    route_message (send_message exStateOrg exReq).2 exResp = .ok none ∧
    (send_message (send_message exStateOrg exReq).2 exResp).1 = false ∧
    (send_message (send_message exStateOrg exReq).2 exResp).2.message_queues =
      (send_message exStateOrg exReq).2.message_queues := by
  refine ⟨?_, ?_, ?_, ?_⟩ <;> rfl

/-- An ESCALATION from the SME with no explicit recipient. -/
def exEsc : Message :=
  Message.mk "esc1" "sme1" "" .ESCALATION [("reason", "overload")] 0 4 []

/-- An ESCALATION from the CEO with no explicit recipient. -/
def exEscCeo : Message :=
  Message.mk "esc2" "ceo1" "" .ESCALATION [("reason", "board")] 0 4 []

/-- C7: contrary to the claim, an ESCALATION from a registered SME whose
manager mgr1 is registered is NOT routed to the manager queue:
_route_escalation evaluates AgentRole.SME, which the enum does not
define, so routing raises AttributeError, send_message returns false, and
the manager queue stays empty.  An ESCALATION from the CEO also returns
false — but through the same exception, not through the missing-manager
branch the claim describes. -/
theorem C7_escalation_crashes_instead_of_routing :
    route_escalation exSme = .error "AttributeError: AgentRole.SME" ∧
    route_message exStateOrg exEsc = .error "AttributeError: AgentRole.SME" ∧
    (send_message exStateOrg exEsc).1 = false ∧
    alistGet (send_message exStateOrg exEsc).2.message_queues "mgr1" = some [] ∧
    (send_message exStateOrg exEsc).2.messages_failed = 1 ∧
    (send_message exStateOrg exEsc).2.messages_processed = 0 ∧
    (send_message exStateOrg exEscCeo).1 = false := by
  refine ⟨?_, ?_, ?_, ?_, ?_, ?_, ?_⟩ <;> rfl

/-- C10: a message whose content is the empty dict fails validation even
when its sender names a registered agent — the falsy-content test fires
before registration is consulted — so send_message returns false with
only the failure counter incremented: nothing is logged, nothing is
enqueued, no conversation is tracked. -/
theorem C10_empty_content_rejected (st : OrchState) (m : Message)
    (h : m.content = []) :
    send_message st m =
      (false, { st with messages_failed := st.messages_failed + 1 }) := by
  have hv : validate_message st m = false := by
    rw [validate_message]
    simp [h]
  rw [send_message, hv]
  simp

/-- Witness for C10: a REQUEST with empty content from the registered SME
is rejected with only the failure counter bumped, although the sender is
registered. -/
theorem C10_witness :
    send_message exStateOrg (Message.mk "mq" "sme1" "mgr1" .REQUEST [] 0 2 []) =
      (false, { exStateOrg with messages_failed := exStateOrg.messages_failed + 1 }) ∧
    (alistGet exStateOrg.agents "sme1").isSome = true :=
  ⟨C10_empty_content_rejected exStateOrg
      (Message.mk "mq" "sme1" "mgr1" .REQUEST [] 0 2 []) rfl,
    by decide⟩
